import Mathlib

/-!
Verification of the Datacom container backup tool (src/backup.py) against its
natural-language specification. The Python source is shallowly embedded:
strings are lists of characters, the filesystem state of one device's backup
directory is a list of snapshot files with modification times, and the
concurrent part (the Git lock) is an interleaving transition system.
-/

/-- Python strings are modelled as lists of characters. -/
abbrev Str := List Char

/-- Characters Python's default str.strip removes. -/
def isWs (c : Char) : Bool :=
  c = ' ' || c = '\t' || c = '\n' || c = '\r' || c = '\x0b' || c = '\x0c'

/-- Python str.strip(): drop leading and trailing whitespace. -/
def pyStrip (l : Str) : Str :=
  ((l.dropWhile isWs).reverse.dropWhile isWs).reverse

/-- Python s.split(sep) for a one-character separator: "".split(sep) is [""],
and n separators yield n+1 pieces. -/
def splitOnChar (sep : Char) : Str → List Str
  | [] => [[]]
  | c :: rest =>
    if c = sep then [] :: splitOnChar sep rest
    else
      match splitOnChar sep rest with
      | [] => [[c]]
      | piece :: more => (c :: piece) :: more

/-- One snapshot file on disk for a device identity: the entry the glob in
cleanup_old_backups (backup.py lines 81-86) sees, with its name and its
last-modification time. -/
structure Snapshot where
  name : Str
  mtime : Nat
  deriving DecidableEq, Repr

/-- Ordering by modification time, the key files.sort(key=os.path.getmtime)
sorts by (backup.py line 86). -/
def mtimeLE (a b : Snapshot) : Prop :=
  a.mtime ≤ b.mtime

instance : DecidableRel mtimeLE :=
  fun a b => inferInstanceAs (Decidable (a.mtime ≤ b.mtime))

instance : IsTotal Snapshot mtimeLE :=
  ⟨fun a b => Nat.le_total a.mtime b.mtime⟩

instance : IsTrans Snapshot mtimeLE :=
  ⟨fun _ _ _ => Nat.le_trans⟩

/-- Python's list.sort is a stable ascending sort; a stable sort is unique as
a function of the key order, so the structurally recursive insertion sort
(also stable) models it exactly. -/
def pySortByMtime (files : List Snapshot) : List Snapshot :=
  files.insertionSort mtimeLE

/-- Python list slice l[:-k]: all but the last k elements; for k = 0 the slice
is l[:0], the empty list. -/
def pySliceToNegative (l : List α) (k : Nat) : List α :=
  if k = 0 then [] else l.take (l.length - k)

/-- backup.py lines 73-99, cleanup_old_backups: glob the hostname directory,
sort the matches by modification time (newest last), and when the count
exceeds MAX_BACKUPS delete files[:-MAX_BACKUPS] from disk. The directory is
modelled as the list of matching snapshot files; os.remove removes a path
from it. -/
def cleanup_old_backups (MAX_BACKUPS : Nat) (dir : List Snapshot) : List Snapshot :=
  let files := pySortByMtime dir
  if MAX_BACKUPS < files.length then
    let files_to_delete := pySliceToNegative files MAX_BACKUPS
    dir.filter (fun f => !(files_to_delete.contains f))
  else dir

/-- Spec side, from the retention sentences: the files kept by the policy are
the min(count, limit) entries with the most recent modification times, read
off as the tail of the list sorted by mtime ascending (ties kept in the
stable sort order). -/
def specRetained (limit : Nat) (dir : List Snapshot) : List Snapshot :=
  (pySortByMtime dir).drop (dir.length - limit)

/-- Spec side: the files the policy deletes, the oldest count - limit in
ascending mtime order. -/
def specDeleted (limit : Nat) (dir : List Snapshot) : List Snapshot :=
  (pySortByMtime dir).take (dir.length - limit)

example : cleanup_old_backups 2 [⟨"a".data, 3⟩, ⟨"b".data, 1⟩, ⟨"c".data, 2⟩]
    = [⟨"a".data, 3⟩, ⟨"c".data, 2⟩] := by decide

example : cleanup_old_backups 0 [⟨"a".data, 3⟩] = [⟨"a".data, 3⟩] := by decide

example : specRetained 2 [⟨"a".data, 3⟩, ⟨"b".data, 1⟩, ⟨"c".data, 2⟩]
    = [⟨"c".data, 2⟩, ⟨"a".data, 3⟩] := by decide

theorem pySortByMtime_perm (dir : List Snapshot) : (pySortByMtime dir).Perm dir :=
  List.perm_insertionSort mtimeLE dir

theorem pySortByMtime_sorted (dir : List Snapshot) :
    List.Sorted mtimeLE (pySortByMtime dir) :=
  List.sorted_insertionSort mtimeLE dir

theorem pySortByMtime_length (dir : List Snapshot) :
    (pySortByMtime dir).length = dir.length :=
  (pySortByMtime_perm dir).length_eq

theorem cleanup_eq_filter (limit : Nat) (dir : List Snapshot) (h0 : limit ≠ 0)
    (hlt : limit < dir.length) :
    cleanup_old_backups limit dir
      = dir.filter
          (fun f => !(((pySortByMtime dir).take (dir.length - limit)).contains f)) := by
  simp only [cleanup_old_backups, pySliceToNegative, pySortByMtime_length]
  rw [if_pos hlt, if_neg h0]

theorem cleanup_eq_self_of_le (limit : Nat) (dir : List Snapshot)
    (h : dir.length ≤ limit) : cleanup_old_backups limit dir = dir := by
  simp only [cleanup_old_backups, pySortByMtime_length]
  rw [if_neg (Nat.not_lt.mpr h)]

theorem cleanup_zero (dir : List Snapshot) : cleanup_old_backups 0 dir = dir := by
  simp only [cleanup_old_backups, pySliceToNegative, pySortByMtime_length]
  split
  · simp
  · rfl

theorem cleanup_perm_specRetained (limit : Nat) (dir : List Snapshot)
    (hpos : 0 < limit) (hnd : dir.Nodup) :
    (cleanup_old_backups limit dir).Perm (specRetained limit dir) := by
  by_cases hlt : limit < dir.length
  · rw [cleanup_eq_filter limit dir (Nat.pos_iff_ne_zero.mp hpos) hlt]
    set files := pySortByMtime dir with hf
    set p : Snapshot → Bool :=
      fun f => !((files.take (dir.length - limit)).contains f) with hp
    have hperm : files.Perm dir := pySortByMtime_perm dir
    have hnf : files.Nodup := hperm.symm.nodup hnd
    have hTD : files.take (dir.length - limit) ++ files.drop (dir.length - limit)
        = files := List.take_append_drop _ _
    have hnf2 : (files.take (dir.length - limit)
        ++ files.drop (dir.length - limit)).Nodup := by
      rw [hTD]; exact hnf
    have hdisj : List.Disjoint (files.take (dir.length - limit))
        (files.drop (dir.length - limit)) :=
      List.disjoint_of_nodup_append hnf2
    have h1 : (dir.filter p).Perm (files.filter p) := (hperm.symm).filter p
    have h2 : files.filter p
        = (files.take (dir.length - limit)).filter p
          ++ (files.drop (dir.length - limit)).filter p := by
      rw [← List.filter_append, hTD]
    have h3 : (files.take (dir.length - limit)).filter p = [] := by
      refine List.filter_eq_nil_iff.mpr (fun a ha => ?_)
      simp [hp, List.contains, List.elem_eq_mem, ha]
    have h4 : (files.drop (dir.length - limit)).filter p
        = files.drop (dir.length - limit) := by
      refine List.filter_eq_self.mpr (fun a ha => ?_)
      have hnotT : a ∉ files.take (dir.length - limit) := fun hT => hdisj hT ha
      simp [hp, List.contains, List.elem_eq_mem, hnotT]
    rw [h2, h3, h4, List.nil_append] at h1
    exact h1
  · rw [cleanup_eq_self_of_le limit dir (Nat.not_lt.mp hlt)]
    unfold specRetained
    rw [Nat.sub_eq_zero_of_le (Nat.not_lt.mp hlt), List.drop_zero]
    exact (pySortByMtime_perm dir).symm

/-- The conclusion of claim C2: after retention enforcement the on-disk count
for the identity is min(count, limit), the survivors are exactly the
min(count, limit) most-recently-modified files, and every deleted file is no
newer than every retained file. -/
def RetentionSpec (limit : Nat) (dir : List Snapshot) : Prop :=
  (cleanup_old_backups limit dir).length = min dir.length limit
  ∧ (cleanup_old_backups limit dir).Perm (specRetained limit dir)
  ∧ ∀ d ∈ specDeleted limit dir, ∀ k ∈ cleanup_old_backups limit dir,
      d.mtime ≤ k.mtime

/-- C2: for every device identity and every on-disk snapshot set, with a
positive retention limit, enforcement leaves exactly min(count, limit) files,
keeps precisely the most recently modified ones, and deletes the oldest
count - limit files. -/
theorem retention_keeps_most_recent (limit : Nat) (dir : List Snapshot)
    (hpos : 0 < limit) (hnd : dir.Nodup) : RetentionSpec limit dir := by
  have hperm := cleanup_perm_specRetained limit dir hpos hnd
  refine ⟨?_, hperm, ?_⟩
  · rw [hperm.length_eq]
    unfold specRetained
    rw [List.length_drop, pySortByMtime_length]
    omega
  · intro d hd k hk
    have hk2 : k ∈ specRetained limit dir := hperm.mem_iff.mp hk
    have hs : List.Sorted mtimeLE (pySortByMtime dir) := pySortByMtime_sorted dir
    rw [← List.take_append_drop (dir.length - limit) (pySortByMtime dir)] at hs
    have := (List.pairwise_append.mp hs).2.2 d hd k hk2
    exact this

def demoDir : List Snapshot := [⟨"a".data, 3⟩, ⟨"b".data, 1⟩, ⟨"c".data, 2⟩]

/-- Witness for C2: three snapshots, limit 2, at a concrete directory. -/
theorem retention_keeps_most_recent_witness : RetentionSpec 2 demoDir :=
  retention_keeps_most_recent 2 demoDir (by decide) (by decide)

theorem cleanup_length_le (limit : Nat) (dir : List Snapshot) (h0 : limit ≠ 0)
    (hlt : limit < dir.length) :
    (cleanup_old_backups limit dir).length ≤ limit := by
  rw [cleanup_eq_filter limit dir h0 hlt]
  set files := pySortByMtime dir with hf
  set p : Snapshot → Bool :=
    fun f => !((files.take (dir.length - limit)).contains f) with hp
  have hperm : files.Perm dir := pySortByMtime_perm dir
  have hTD : files.take (dir.length - limit) ++ files.drop (dir.length - limit)
      = files := List.take_append_drop _ _
  have h1 : (dir.filter p).length = (files.filter p).length :=
    ((hperm.symm).filter p).length_eq
  have h2 : files.filter p
      = (files.take (dir.length - limit)).filter p
        ++ (files.drop (dir.length - limit)).filter p := by
    rw [← List.filter_append, hTD]
  have h3 : (files.take (dir.length - limit)).filter p = [] := by
    refine List.filter_eq_nil_iff.mpr (fun a ha => ?_)
    simp [hp, List.contains, List.elem_eq_mem, ha]
  rw [h1, h2, h3, List.nil_append]
  calc ((files.drop (dir.length - limit)).filter p).length
      ≤ (files.drop (dir.length - limit)).length := List.length_filter_le _ _
    _ ≤ limit := by rw [List.length_drop, pySortByMtime_length]; omega

/-- C7: retention enforcement is idempotent; with no new files in between,
the second run deletes nothing and leaves the directory exactly as the first
run left it. -/
theorem retention_idempotent (limit : Nat) (dir : List Snapshot) :
    cleanup_old_backups limit (cleanup_old_backups limit dir)
      = cleanup_old_backups limit dir := by
  by_cases h0 : limit = 0
  · subst h0
    rw [cleanup_zero, cleanup_zero]
  · by_cases hlt : limit < dir.length
    · exact cleanup_eq_self_of_le limit _ (cleanup_length_le limit dir h0 hlt)
    · rw [cleanup_eq_self_of_le limit dir (Nat.not_lt.mp hlt)]
      exact cleanup_eq_self_of_le limit dir (Nat.not_lt.mp hlt)

/-!
## Orchestrator and notification (backup.py main, send_telegram_notification)
-/

/-- The per-device success dictionary backup_router returns on lines 181-188.
The float fields size_kb and duration are modelled by their numeric value as
naturals; no claim depends on them. -/
structure BackupDetail where
  hostname : Str
  ip : Str
  filename : Str
  size_kb : Nat
  duration : Nat
  timestamp : Str
  deriving DecidableEq, Repr

/-- What one worker call delivers to the orchestrator: backup_router returns
(True, detail) or (False, message), or the future itself raises and
future.result() re-raises (backup.py lines 181-201, 239-246). -/
inductive WorkerResult where
  | success (detail : BackupDetail)
  | failure (msg : Str)
  | raised (exc : Str)
  deriving DecidableEq, Repr

/-- An entry of failed_hosts (backup.py lines 244, 246). -/
structure FailureEntry where
  ip : Str
  error : Str
  deriving DecidableEq, Repr

/-- The aggregate outcome of one run: success_details and failed_hosts
(backup.py lines 226-227). -/
structure JobResult where
  success_details : List BackupDetail
  failed_hosts : List FailureEntry
  deriving DecidableEq, Repr

/-- The error text built on backup.py line 246 for a future that raised. -/
def threadExceptionMsg (exc : Str) : Str :=
  "Thread exception: ".data ++ exc

/-- One iteration of the as_completed loop (backup.py lines 237-246): append
the result to success_details, or an ip/error entry to failed_hosts. -/
def collectResult (host : Str) (r : WorkerResult) (acc : JobResult) : JobResult :=
  match r with
  | .success d => { acc with success_details := acc.success_details ++ [d] }
  | .failure m => { acc with failed_hosts := acc.failed_hosts ++ [⟨pyStrip host, m⟩] }
  | .raised e =>
      { acc with failed_hosts := acc.failed_hosts ++ [⟨pyStrip host, threadExceptionMsg e⟩] }

/-- The hosts the orchestrator dispatches a worker for: the comprehension on
backup.py line 235 keeps every truthy (non-empty) address. -/
def dispatchedHosts (hosts : List Str) : List Str :=
  hosts.filter (fun h => !h.isEmpty)

/-- The as_completed collection loop (backup.py lines 233-246). Futures
complete in a nondeterministic order, so the loop is modelled as a fold over
an arbitrary completion order, a permutation of the dispatched hosts; the
worker behaviour is a function from address to its delivered result. -/
def runJob (order : List Str) (worker : Str → WorkerResult) : JobResult :=
  order.foldl (fun acc host => collectResult host (worker host) acc) ⟨[], []⟩

/-- The success record a completion order position contributes, if any. -/
def successOf (worker : Str → WorkerResult) (host : Str) : Option BackupDetail :=
  match worker host with
  | .success d => some d
  | _ => none

/-- The failure record a completion order position contributes, if any. -/
def failureOf (worker : Str → WorkerResult) (host : Str) : Option FailureEntry :=
  match worker host with
  | .success _ => none
  | .failure m => some ⟨pyStrip host, m⟩
  | .raised e => some ⟨pyStrip host, threadExceptionMsg e⟩

theorem runJob_aux (order : List Str) (worker : Str → WorkerResult)
    (acc : JobResult) :
    order.foldl (fun acc host => collectResult host (worker host) acc) acc
      = ⟨acc.success_details ++ order.filterMap (successOf worker),
         acc.failed_hosts ++ order.filterMap (failureOf worker)⟩ := by
  induction order generalizing acc with
  | nil => simp
  | cons h t ih =>
    rw [List.foldl_cons, ih]
    cases hw : worker h <;>
      simp [collectResult, successOf, failureOf, hw, List.append_assoc]

/-- runJob, characterised: the successes are the worker successes in
completion order, the failures everything else, each tagged with the stripped
address. -/
theorem runJob_eq (order : List Str) (worker : Str → WorkerResult) :
    runJob order worker
      = ⟨order.filterMap (successOf worker), order.filterMap (failureOf worker)⟩ := by
  unfold runJob
  rw [runJob_aux]
  rfl

theorem record_count (order : List Str) (worker : Str → WorkerResult) :
    (order.filterMap (successOf worker)).length
      + (order.filterMap (failureOf worker)).length = order.length := by
  induction order with
  | nil => simp
  | cons h t ih =>
    cases hw : worker h <;>
      simp [successOf, failureOf, hw, List.filterMap_cons] <;> omega

/-- The conclusion of claim C1: the finished JobResult has exactly one record
per dispatched (non-empty) address, and a worker that raised shows up as a
failure entry carrying the thread-exception message rather than aborting the
run. -/
def OneRecordPerHost (hosts order : List Str) (worker : Str → WorkerResult) : Prop :=
  (runJob order worker).success_details.length
      + (runJob order worker).failed_hosts.length
    = (dispatchedHosts hosts).length
  ∧ ∀ h ∈ order, ∀ e, worker h = .raised e →
      (⟨pyStrip h, threadExceptionMsg e⟩ : FailureEntry)
        ∈ (runJob order worker).failed_hosts

/-- C1: for every input device list and every completion order of the
dispatched workers, the orchestrator produces exactly one record (success or
failure) per non-empty input address, and converts a raising worker into a
FailureRecord instead of aborting. -/
theorem orchestrator_one_record_per_host (hosts order : List Str)
    (worker : Str → WorkerResult)
    (horder : order.Perm (dispatchedHosts hosts)) :
    OneRecordPerHost hosts order worker := by
  constructor
  · rw [runJob_eq]
    have h1 := record_count order worker
    have h2 := horder.length_eq
    simpa [h2] using h1
  · intro h hmem e hw
    rw [runJob_eq]
    refine List.mem_filterMap.mpr ⟨h, hmem, ?_⟩
    simp [failureOf, hw]

def demoWorker : Str → WorkerResult :=
  fun h =>
    if h = "10.0.0.1".data then
      .success ⟨"R1".data, "10.0.0.1".data, "R1_20260101_120000.conf".data, 12, 2,
        "20260101_120000".data⟩
    else if h = "10.0.0.2 ".data then
      .raised "KeyError".data
    else
      .failure "Authentication failed".data

def demoHosts : List Str := ["10.0.0.1".data, [], "10.0.0.2 ".data, "bad".data]

/-- Witness for C1 at a concrete host list containing an empty address, a
success, a raising worker and a failing worker, in a completion order
different from the input order. -/
theorem orchestrator_one_record_per_host_witness :
    OneRecordPerHost demoHosts ["bad".data, "10.0.0.1".data, "10.0.0.2 ".data]
      demoWorker :=
  orchestrator_one_record_per_host demoHosts
    ["bad".data, "10.0.0.1".data, "10.0.0.2 ".data] demoWorker (by decide)

/-- Python truthiness of an os.getenv result: None and the empty string are
falsy. -/
def pyTruthy (s : Option Str) : Bool :=
  match s with
  | none => false
  | some l => !l.isEmpty

/-- ROUTER_HOSTS = os.getenv("ROUTER_HOSTS", "").split(",") (backup.py
line 16). -/
def ROUTER_HOSTS (env : Str) : List Str :=
  splitOnChar ',' env

/-- What one run of main is observed to do: which hosts got a worker, the
aggregated JobResult, and whether the notification step was entered
(backup.py lines 208-252 guard it with "if failed_hosts or success_details").
-/
structure MainOutcome where
  dispatched : List Str
  result : JobResult
  notification_attempted : Bool
  deriving DecidableEq, Repr

/-- backup.py main (lines 208-295): return early on an empty host list or on
missing credentials, otherwise dispatch one worker per truthy address,
collect results in completion order, and enter the notification block exactly
when some record exists. -/
def mainRun (router_hosts_env : Str) (username password : Option Str)
    (order : List Str) (worker : Str → WorkerResult) : MainOutcome :=
  let hosts := ROUTER_HOSTS router_hosts_env
  if hosts.isEmpty || hosts = [[]] then ⟨[], ⟨[], []⟩, false⟩
  else if !pyTruthy username || !pyTruthy password then ⟨[], ⟨[], []⟩, false⟩
  else
    let jr := runJob order worker
    ⟨dispatchedHosts hosts, jr,
      !jr.failed_hosts.isEmpty || !jr.success_details.isEmpty⟩

/-- First half of claim C6: with no configured devices or missing
credentials, the run ends with nothing dispatched, an empty JobResult, and no
notification attempt. -/
def EarlyExitSilent (env : Str) (username password : Option Str)
    (order : List Str) (worker : Str → WorkerResult) : Prop :=
  (ROUTER_HOSTS env = [[]] ∨ pyTruthy username = false ∨ pyTruthy password = false) →
    mainRun env username password order worker = ⟨[], ⟨[], []⟩, false⟩

/-- Second half of claim C6: a notification is attempted only when the
JobResult holds at least one record. -/
def NotifyOnlyWithRecords (env : Str) (username password : Option Str)
    (order : List Str) (worker : Str → WorkerResult) : Prop :=
  (mainRun env username password order worker).notification_attempted = true →
    (mainRun env username password order worker).result.success_details ≠ []
    ∨ (mainRun env username password order worker).result.failed_hosts ≠ []

/-- C6: an empty device set or missing credentials ends the run before any
worker is dispatched, with an empty JobResult and no notification; and in
general the notification step runs only when at least one success or failure
record exists. -/
theorem main_early_exit_and_notify_guard (env : Str)
    (username password : Option Str) (order : List Str)
    (worker : Str → WorkerResult) :
    EarlyExitSilent env username password order worker
    ∧ NotifyOnlyWithRecords env username password order worker := by
  constructor
  · intro hcond
    simp only [mainRun]
    by_cases hb1 : ((ROUTER_HOSTS env).isEmpty || decide (ROUTER_HOSTS env = [[]])) = true
    · rw [if_pos hb1]
    · rw [if_neg hb1]
      have hb2 : (!pyTruthy username || !pyTruthy password) = true := by
        rcases hcond with h | h | h
        · exact absurd (by simp [h]) hb1
        · simp [h]
        · simp [h]
      rw [if_pos hb2]
  · intro hnotif
    simp only [mainRun] at hnotif ⊢
    by_cases hb1 : ((ROUTER_HOSTS env).isEmpty || decide (ROUTER_HOSTS env = [[]])) = true
    · rw [if_pos hb1] at hnotif
      simp at hnotif
    · rw [if_neg hb1] at hnotif ⊢
      by_cases hb2 : (!pyTruthy username || !pyTruthy password) = true
      · rw [if_pos hb2] at hnotif
        simp at hnotif
      · rw [if_neg hb2] at hnotif ⊢
        simp only [Bool.or_eq_true, Bool.not_eq_true'] at hnotif
        rcases hnotif with h | h
        · right
          intro hemp
          rw [hemp] at h
          simp at h
        · left
          intro hemp
          rw [hemp] at h
          simp at h

/-- Witness for C6 conclusions at concrete inputs: an empty environment ends
the run silently, and a run whose only worker fails does attempt a
notification with a nonempty failure list. -/
theorem main_early_exit_witness :
    EarlyExitSilent [] (some "admin".data) none ["x".data] demoWorker
    ∧ NotifyOnlyWithRecords [] (some "admin".data) none ["x".data] demoWorker :=
  main_early_exit_and_notify_guard [] (some "admin".data) none ["x".data] demoWorker

/-- The HTTP payload send_telegram_notification posts (backup.py lines
36-41). -/
structure TelegramPayload where
  chat_id : Str
  text : Str
  parse_mode : Str
  deriving DecidableEq, Repr

/-- backup.py lines 30-48, send_telegram_notification: when the bot token or
the chat id is not configured (None or empty), return without any delivery
attempt; otherwise attempt one POST with the message payload. The function's
observable effect is the attempted payload, none when it skips. -/
def send_telegram_notification (TELEGRAM_BOT_TOKEN TELEGRAM_CHAT_ID : Option Str)
    (message : Str) : Option TelegramPayload :=
  if !pyTruthy TELEGRAM_BOT_TOKEN || !pyTruthy TELEGRAM_CHAT_ID then none
  else some ⟨TELEGRAM_CHAT_ID.getD [], message, "Markdown".data⟩

/-- The conclusion of claim C10: unconfigured credentials mean no delivery
attempt, whatever the message says. -/
def NotificationSkippedWhenUnconfigured (token chat : Option Str) (message : Str) : Prop :=
  (pyTruthy token = false ∨ pyTruthy chat = false) →
    send_telegram_notification token chat message = none

/-- C10: when the bot token or chat identifier is missing or empty, the
notification step returns without attempting delivery, even for a message
reporting records. -/
theorem telegram_skipped_when_unconfigured (token chat : Option Str)
    (message : Str) : NotificationSkippedWhenUnconfigured token chat message := by
  intro h
  unfold send_telegram_notification
  rcases h with h | h <;> simp [h]

/-- Witness for C10: with no token configured, a message summarising one
success leads to no delivery attempt. -/
theorem telegram_skipped_witness :
    send_telegram_notification none (some "12345".data)
      "BACKUP JOB - SUCESSO".data = none :=
  telegram_skipped_when_unconfigured none (some "12345".data)
    "BACKUP JOB - SUCESSO".data (Or.inl rfl)

/-!
## Worker tail: write, commit, retention (backup_router lines 145-188)
-/

/-- Python str.replace(old, new) for one-character old and new: replace every
occurrence. -/
def pyReplaceChar (old new : Char) (l : Str) : Str :=
  l.map (fun c => if c = old then new else c)

/-- Python str.replace(old, "") for a one-character old: delete every
occurrence. -/
def pyRemoveChar (old : Char) (l : Str) : Str :=
  l.filter (fun c => !(c = old))

/-- backup.py line 146: the sanitisation chain applied to the extracted
hostname, in source order — ";" is removed, and each of / \ : * ? " < > | is
replaced by an underscore. -/
def sanitizeHostname (device_hostname : Str) : Str :=
  pyReplaceChar '|' '_'
    (pyReplaceChar '>' '_'
      (pyReplaceChar '<' '_'
        (pyReplaceChar '"' '_'
          (pyReplaceChar '?' '_'
            (pyReplaceChar '*' '_'
              (pyReplaceChar ':' '_'
                (pyReplaceChar '\\' '_'
                  (pyReplaceChar '/' '_'
                    (pyRemoveChar ';' device_hostname)))))))))

/-- The characters the spec calls path separators and reserved filesystem
characters, the ones line 146 handles. -/
def forbiddenChars : Str := [';', '/', '\\', ':', '*', '?', '"', '<', '>', '|']

example : sanitizeHostname "Core/Router:1".data = "Core_Router_1".data := by decide

theorem pyReplaceChar_mem (old new : Char) (l : Str) (c : Char)
    (h : c ∈ pyReplaceChar old new l) (hne : c ≠ new) : c ≠ old ∧ c ∈ l := by
  unfold pyReplaceChar at h
  rcases List.mem_map.mp h with ⟨a, ha, hac⟩
  by_cases hao : a = old
  · rw [hao, if_pos rfl] at hac
    exact absurd hac.symm hne
  · rw [if_neg hao] at hac
    subst hac
    exact ⟨hao, ha⟩

/-- The conclusion of claim C9: sanitisation leaves no forbidden character in
the result, and maps the spec's example to its filesystem-safe token. -/
def SanitizeSpec : Prop :=
  (∀ s : Str, ∀ c ∈ sanitizeHostname s, c ∉ forbiddenChars)
  ∧ sanitizeHostname "Core/Router:1".data = "Core_Router_1".data

/-- C9: the sanitised identity contains no path separator or reserved
filesystem character — each is replaced by an underscore (";" is deleted) —
and "Core/Router:1" becomes "Core_Router_1". -/
theorem sanitize_removes_forbidden : SanitizeSpec := by
  constructor
  · intro s c hc hmem
    by_cases hu : c = '_'
    · subst hu
      simp [forbiddenChars] at hmem
    · unfold sanitizeHostname at hc
      obtain ⟨h10, hc⟩ := pyReplaceChar_mem _ _ _ _ hc hu
      obtain ⟨h9, hc⟩ := pyReplaceChar_mem _ _ _ _ hc hu
      obtain ⟨h8, hc⟩ := pyReplaceChar_mem _ _ _ _ hc hu
      obtain ⟨h7, hc⟩ := pyReplaceChar_mem _ _ _ _ hc hu
      obtain ⟨h6, hc⟩ := pyReplaceChar_mem _ _ _ _ hc hu
      obtain ⟨h5, hc⟩ := pyReplaceChar_mem _ _ _ _ hc hu
      obtain ⟨h4, hc⟩ := pyReplaceChar_mem _ _ _ _ hc hu
      obtain ⟨h3, hc⟩ := pyReplaceChar_mem _ _ _ _ hc hu
      obtain ⟨h2, hc⟩ := pyReplaceChar_mem _ _ _ _ hc hu
      have h1 : ¬(c = ';') := by
        have := List.of_mem_filter hc
        simpa using this
      simp [forbiddenChars] at hmem
      rcases hmem with h | h | h | h | h | h | h | h | h | h <;> simp_all
  · decide

/-- backup.py lines 27-28, get_timestamp: now().strftime of a fixed
year-to-second format; its output is always 15 characters
(8 date digits, an underscore, 6 time digits). -/
def timestampLength : Nat := 15

/-- backup.py line 156: the persisted snapshot filename
device_hostname_timestamp.conf. -/
def mkFilename (device_hostname timestamp : Str) : Str :=
  device_hostname ++ ['_'] ++ timestamp ++ ".conf".data

/-- An abstract view of the repository a worker mutates: the snapshot files
of the device's directory plus the commit messages of the version history. -/
structure RepoState where
  dir : List Snapshot
  commits : List Str
  deriving DecidableEq, Repr

/-- backup.py line 68: the commit message. -/
def commitMessage (hostname filename : Str) : Str :=
  "Backup ".data ++ hostname ++ " - ".data ++ filename

/-- backup.py lines 61-71, commit_to_git: stage the file and commit; any
exception is caught and only printed, so a failing commit (git_raises) leaves
the repository state — in particular the on-disk files — untouched. The
commit never writes or deletes snapshot files either way. -/
def commit_to_git (git_raises : Bool) (repo : RepoState)
    (filename hostname : Str) : RepoState :=
  if git_raises then repo
  else { repo with commits := repo.commits ++ [commitMessage hostname filename] }

/-- backup.py lines 154-188, the tail of backup_router after the config was
fetched: write the snapshot file, then under GIT_LOCK commit it and enforce
retention, then return (True, detail). cleanup_raises models an exception
inside cleanup_old_backups caught by its own try/except before any deletion;
git_raises one inside commit_to_git. Neither changes the returned outcome. -/
def backupRouterTail (repo : RepoState) (device_hostname ip timestamp : Str)
    (size_kb duration mtime MAX_BACKUPS : Nat)
    (git_raises cleanup_raises : Bool) : (Bool × BackupDetail) × RepoState :=
  let filename := mkFilename device_hostname timestamp
  let dir1 := repo.dir ++ [⟨filename, mtime⟩]
  let repo1 := commit_to_git git_raises ⟨dir1, repo.commits⟩ filename device_hostname
  let dir2 := if cleanup_raises then repo1.dir else cleanup_old_backups MAX_BACKUPS repo1.dir
  ((true, ⟨device_hostname, ip, filename, size_kb, duration, timestamp⟩),
    ⟨dir2, repo1.commits⟩)

/-- The conclusion of claim C5: whatever the commit and retention steps do
(raise or not), the worker still returns success with the same record; a
failing commit leaves the on-disk files untouched, and the freshly written
snapshot is still on disk right after the commit step. -/
def CommitFailureIsolated (repo : RepoState) (device_hostname ip timestamp : Str)
    (size_kb duration mtime MAX_BACKUPS : Nat)
    (git_raises cleanup_raises : Bool) : Prop :=
  (backupRouterTail repo device_hostname ip timestamp size_kb duration mtime
      MAX_BACKUPS git_raises cleanup_raises).1
    = (true, ⟨device_hostname, ip, mkFilename device_hostname timestamp,
        size_kb, duration, timestamp⟩)
  ∧ (commit_to_git true repo (mkFilename device_hostname timestamp)
      device_hostname).dir = repo.dir
  ∧ (⟨mkFilename device_hostname timestamp, mtime⟩ : Snapshot)
      ∈ (commit_to_git git_raises
          ⟨repo.dir ++ [⟨mkFilename device_hostname timestamp, mtime⟩], repo.commits⟩
          (mkFilename device_hostname timestamp) device_hostname).dir

/-- C5: a failure in the commit or retention step never changes the device's
outcome — the worker still returns (True, record) — and the failed commit
neither rolls back nor deletes the snapshot file already written. -/
theorem commit_failure_isolated (repo : RepoState)
    (device_hostname ip timestamp : Str)
    (size_kb duration mtime MAX_BACKUPS : Nat) (git_raises cleanup_raises : Bool) :
    CommitFailureIsolated repo device_hostname ip timestamp size_kb duration
      mtime MAX_BACKUPS git_raises cleanup_raises := by
  refine ⟨rfl, rfl, ?_⟩
  cases git_raises <;> simp [commit_to_git]

/-!
## Filename uniqueness (claim C8)
-/

theorem mkFilename_inj_aux (id1 ts1 id2 ts2 : Str)
    (h1 : ts1.length = timestampLength) (h2 : ts2.length = timestampLength)
    (heq : mkFilename id1 ts1 = mkFilename id2 ts2) : id1 = id2 ∧ ts1 = ts2 := by
  unfold mkFilename at heq
  rw [List.append_assoc, List.append_assoc, List.append_assoc, List.append_assoc]
    at heq
  have hlen : (['_'] ++ (ts1 ++ ".conf".data)).length
      = (['_'] ++ (ts2 ++ ".conf".data)).length := by
    simp [h1, h2]
  obtain ⟨hid, hrest⟩ := List.append_inj' heq (by simpa using hlen)
  refine ⟨hid, ?_⟩
  have hts : ts1 ++ ".conf".data = ts2 ++ ".conf".data := by
    simpa using hrest
  exact (List.append_inj' hts (by simp)).1

/-- The conclusion of the amended claim C8: the filename encodes the
identity-timestamp pair injectively, so two successful backups get the same
filename exactly when they share both the device identity and the
second-granularity timestamp. -/
def FilenameInjective (id1 ts1 id2 ts2 : Str) : Prop :=
  mkFilename id1 ts1 = mkFilename id2 ts2 → id1 = id2 ∧ ts1 = ts2

/-- C8 (amended): for timestamps of the fixed 15-character format, equal
persisted filenames force equal device identity and equal timestamp; two
successful backups differing in identity or fetch second always get distinct
filenames. -/
theorem filename_unique_per_identity_and_second (id1 ts1 id2 ts2 : Str)
    (h1 : ts1.length = timestampLength) (h2 : ts2.length = timestampLength) :
    FilenameInjective id1 ts1 id2 ts2 :=
  fun heq => mkFilename_inj_aux id1 ts1 id2 ts2 h1 h2 heq

/-- Witness for the amended C8 at two concrete distinct identities. -/
theorem filename_unique_witness :
    FilenameInjective "R1".data "20260101_120000".data
      "R2".data "20260101_120000".data :=
  filename_unique_per_identity_and_second "R1".data "20260101_120000".data
    "R2".data "20260101_120000".data (by decide) (by decide)

/-- A worker behaviour the code can exhibit: two input addresses reach the
same device (or a duplicated address), the configuration names the same
hostname, and both fetches fall in the same strftime second. -/
def sameDeviceWorker : Str → WorkerResult :=
  fun h =>
    .success ⟨"R1".data, pyStrip h,
      mkFilename "R1".data "20260101_120000".data, 12, 1, "20260101_120000".data⟩

def duplicatedHosts : List Str := ["10.0.0.1".data, "10.0.0.1 ".data]

/-- Counterexample to C8 as stated: a run over two addresses of the same
device completing in the same second yields two success records whose
persisted filenames are equal, so filenames are not unique across workers
within one run. -/
theorem filename_collision_counterexample :
    (dispatchedHosts duplicatedHosts).Perm (dispatchedHosts duplicatedHosts)
    ∧ (runJob (dispatchedHosts duplicatedHosts) sameDeviceWorker).success_details.length = 2
    ∧ ¬ ((runJob (dispatchedHosts duplicatedHosts) sameDeviceWorker).success_details.map
          (fun d => d.filename)).Nodup := by
  refine ⟨List.Perm.refl _, by decide, by decide⟩

/-!
## Hostname extraction (backup_router lines 136-143, claim C3)
-/

/-- Python str.lower(), character by character. -/
def pyLower (l : Str) : Str :=
  l.map Char.toLower

/-- Python str.startswith(p). -/
def pyStartsWith (p l : Str) : Bool :=
  List.isPrefixOf p l

/-- Python's substring test "needle in hay". -/
def pyContainsSub (needle hay : Str) : Bool :=
  decide (needle <:+: hay)

/-- Accumulator of Python str.split() with no argument: collect the current
run of non-whitespace characters (reversed) and emit it at each whitespace
boundary. -/
def pySplitWsAux : Str → Str → List Str
  | [], acc => if acc.isEmpty then [] else [acc.reverse]
  | c :: rest, acc =>
    if isWs c then
      if acc.isEmpty then pySplitWsAux rest []
      else acc.reverse :: pySplitWsAux rest []
    else pySplitWsAux rest (c :: acc)

/-- Python str.split() with no argument: the maximal runs of non-whitespace
characters, no empty pieces. -/
def pySplitWs (l : Str) : List Str :=
  pySplitWsAux l []

example : pySplitWs "  hostname   Router-42  ".data
    = ["hostname".data, "Router-42".data] := by decide

example : pySplitWs "".data = [] := by decide

theorem pySplitWsAux_infix (l : Str) :
    ∀ acc : Str, ∀ p ∈ pySplitWsAux l acc, p <:+: acc.reverse ++ l := by
  induction l with
  | nil =>
    intro acc p hp
    unfold pySplitWsAux at hp
    split at hp
    · simp at hp
    · rw [List.mem_singleton] at hp
      subst hp
      simp
  | cons c rest ih =>
    intro acc p hp
    unfold pySplitWsAux at hp
    by_cases hws : isWs c = true
    · rw [if_pos hws] at hp
      have hrest : ∀ q ∈ pySplitWsAux rest [], q <:+: rest := by
        intro q hq
        simpa using ih [] q hq
      have hsfx : rest <:+: acc.reverse ++ c :: rest := by
        refine (List.IsSuffix.isInfix ?_)
        refine List.IsSuffix.trans ?_ (List.suffix_append _ _)
        exact ⟨[c], rfl⟩
      split at hp
      · exact (hrest p hp).trans hsfx
      · rcases List.mem_cons.mp hp with h | h
        · subst h
          exact List.IsPrefix.isInfix (List.prefix_append _ _)
        · exact (hrest p h).trans hsfx
    · rw [if_neg hws] at hp
      have := ih (c :: acc) p hp
      simpa [List.append_assoc] using this

theorem pySplitWs_infix (l : Str) (p : Str) (hp : p ∈ pySplitWs l) : p <:+: l := by
  simpa using pySplitWsAux_infix l [] p hp

/-- backup.py lines 137-143: scan the configuration lines with the stripped
connection address as the default; a line whose lowercase text contains
"hostname" and whose stripped form does not start with "!" or "#" is split
into tokens, and when it has at least two tokens and its first token equals
"hostname" case-insensitively, the second token is taken and the scan stops.
-/
def scanHostname (device_hostname : Str) : List Str → Str
  | [] => device_hostname
  | line :: rest =>
    if pyContainsSub "hostname".data (pyLower line)
        && !pyStartsWith "!".data (pyStrip line)
        && !pyStartsWith "#".data (pyStrip line) then
      match pySplitWs line with
      | p0 :: p1 :: _ =>
        if pyLower p0 = "hostname".data then p1
        else scanHostname device_hostname rest
      | _ => scanHostname device_hostname rest
    else scanHostname device_hostname rest

/-- backup.py lines 136-143: hostname extraction over the raw configuration
text, split on newlines, defaulting to the stripped connection address. -/
def extract_hostname (hostname_address : Str) (config_output : Str) : Str :=
  scanHostname (pyStrip hostname_address) (splitOnChar '\n' config_output)

example : extract_hostname "10.0.0.1".data
    "! hostname fake\nHOSTNAME Router-42\nend".data = "Router-42".data := by decide

/-- Counterexample to C3 as stated: on a configuration with no matching line
the extraction returns the stripped connection address, not the sentinel
"not found". -/
theorem hostname_no_match_returns_address_not_sentinel :
    extract_hostname "10.0.0.1".data "interface eth0\n! hostname not-set".data
      = "10.0.0.1".data
    ∧ "10.0.0.1".data ≠ "not found".data := by
  exact ⟨by decide, by decide⟩

/-- Spec side, the amended per-line rule of C3: skip a line whose stripped
form begins with "!" or "#"; otherwise the line matches exactly when it has
at least two whitespace-delimited tokens and its first token equals
"hostname" case-insensitively, and it then contributes its second token. -/
def lineHostnameToken (line : Str) : Option Str :=
  if pyStartsWith "!".data (pyStrip line) || pyStartsWith "#".data (pyStrip line) then
    none
  else
    match pySplitWs line with
    | p0 :: p1 :: _ => if pyLower p0 = "hostname".data then some p1 else none
    | _ => none

/-- Spec side: the second token of the first matching line, and the stripped
connection address when no line matches. -/
def specExtractHostname (address config : Str) : Str :=
  ((splitOnChar '\n' config).filterMap lineHostnameToken).headD (pyStrip address)

theorem scanHostname_eq_spec (d : Str) (lines : List Str) :
    scanHostname d lines = (lines.filterMap lineHostnameToken).headD d := by
  induction lines with
  | nil => rfl
  | cons line rest ih =>
    by_cases hcm : (pyStartsWith "!".data (pyStrip line)
        || pyStartsWith "#".data (pyStrip line)) = true
    · have htok : lineHostnameToken line = none := by
        unfold lineHostnameToken
        rw [if_pos hcm]
      have hcode : (pyContainsSub "hostname".data (pyLower line)
          && !pyStartsWith "!".data (pyStrip line)
          && !pyStartsWith "#".data (pyStrip line)) = false := by
        rcases Bool.or_eq_true_iff.mp hcm with h | h <;> simp [h]
      simp only [scanHostname, hcode, Bool.false_eq_true, if_false,
        List.filterMap_cons, htok]
      exact ih
    · have hcm2 := hcm
      simp only [Bool.or_eq_true, not_or, Bool.not_eq_true] at hcm2
      obtain ⟨hbang, hhash⟩ := hcm2
      have htok : lineHostnameToken line
          = match pySplitWs line with
            | p0 :: p1 :: _ =>
                if pyLower p0 = "hostname".data then some p1 else none
            | _ => none := by
        unfold lineHostnameToken
        rw [if_neg (by simp [hbang, hhash])]
      cases hsp : pySplitWs line with
      | nil =>
        rw [hsp] at htok
        have htok2 : lineHostnameToken line = none := htok
        simp only [scanHostname, hsp, List.filterMap_cons, htok2]
        split <;> exact ih
      | cons p0 ps =>
        cases ps with
        | nil =>
          rw [hsp] at htok
          have htok2 : lineHostnameToken line = none := htok
          simp only [scanHostname, hsp, List.filterMap_cons, htok2]
          split <;> exact ih
        | cons p1 ps2 =>
          rw [hsp] at htok
          have htok2 : lineHostnameToken line
              = if pyLower p0 = "hostname".data then some p1 else none := htok
          by_cases hp0 : pyLower p0 = "hostname".data
          · have hinf : "hostname".data <:+: pyLower line := by
              have hp0mem : p0 ∈ pySplitWs line := by
                rw [hsp]
                exact List.mem_cons_self p0 (p1 :: ps2)
              have hpl : p0 <:+: line := pySplitWs_infix line p0 hp0mem
              have hmap := hpl.map Char.toLower
              rw [show p0.map Char.toLower = "hostname".data from hp0] at hmap
              exact hmap
            have hcond : (pyContainsSub "hostname".data (pyLower line)
                && !pyStartsWith "!".data (pyStrip line)
                && !pyStartsWith "#".data (pyStrip line)) = true := by
              simp [pyContainsSub, hinf, hbang, hhash]
            rw [if_pos hp0] at htok2
            simp only [scanHostname, hsp, hcond, if_true, List.filterMap_cons, htok2]
            rw [if_pos hp0]
            rfl
          · rw [if_neg hp0] at htok2
            simp only [scanHostname, hsp, List.filterMap_cons, htok2, if_neg hp0]
            split <;> exact ih

/-- C3 (amended): hostname extraction scans lines in order, skips lines whose
stripped form begins with "!" or "#", matches a line exactly when it has at
least two whitespace-delimited tokens and its first token equals "hostname"
case-insensitively, returns the second token of the first matching line, and
when no line matches returns the stripped connection address (the code's
default), not a "not found" sentinel. -/
theorem hostname_extraction_characterised (address config : Str) :
    extract_hostname address config = specExtractHostname address config :=
  scanHostname_eq_spec (pyStrip address) (splitOnChar '\n' config)

/-!
## GIT_LOCK mutual exclusion (backup.py lines 24-25 and 172-178, claim C4)

The concurrent workers are modelled as an interleaving transition system: a
worker runs its per-device retrieval, waits at "with GIT_LOCK", acquires the
lock only when no one holds it, performs the commit step and then the
retention step inside the region, and the "with" block releases the lock on
exit. The holder field records which worker owns GIT_LOCK.
-/

/-- Where one worker is in backup_router: before the critical section,
blocked at "with GIT_LOCK" (line 173), inside the region at the commit step
(line 175), inside the region at the cleanup step (line 178), or past the
region. -/
inductive WPhase where
  | running
  | waiting
  | critCommit
  | critCleanup
  | finished
  deriving DecidableEq, Repr

/-- The interleaved state of n workers sharing GIT_LOCK. -/
structure LockSystem (n : Nat) where
  holder : Option (Fin n)
  phase : Fin n → WPhase

/-- Every worker starts before its critical section; nobody holds GIT_LOCK. -/
def lockInit (n : Nat) : LockSystem n :=
  ⟨none, fun _ => .running⟩

/-- One interleaving step: a worker reaches the "with GIT_LOCK" statement,
acquires the free lock and enters the commit step, moves from the commit step
to the cleanup step, or leaves the region, releasing the lock. -/
inductive LockStep {n : Nat} : LockSystem n → LockSystem n → Prop where
  | reach (i : Fin n) (s : LockSystem n) (h : s.phase i = .running) :
      LockStep s ⟨s.holder, Function.update s.phase i .waiting⟩
  | acquire (i : Fin n) (s : LockSystem n) (h : s.phase i = .waiting)
      (hfree : s.holder = none) :
      LockStep s ⟨some i, Function.update s.phase i .critCommit⟩
  | commitDone (i : Fin n) (s : LockSystem n) (h : s.phase i = .critCommit) :
      LockStep s ⟨s.holder, Function.update s.phase i .critCleanup⟩
  | release (i : Fin n) (s : LockSystem n) (h : s.phase i = .critCleanup) :
      LockStep s ⟨none, Function.update s.phase i .finished⟩

/-- The states one job run can reach from the initial state. -/
def LockReachable {n : Nat} (s : LockSystem n) : Prop :=
  Relation.ReflTransGen LockStep (lockInit n) s

/-- Worker i is inside its commit-plus-retention region. -/
def inCritical {n : Nat} (s : LockSystem n) (i : Fin n) : Prop :=
  s.phase i = .critCommit ∨ s.phase i = .critCleanup

/-- The inductive invariant: a worker is inside the region exactly when it is
the recorded holder of GIT_LOCK. -/
def LockInv {n : Nat} (s : LockSystem n) : Prop :=
  ∀ i, inCritical s i ↔ s.holder = some i

/-- No two workers are inside their commit-plus-retention regions at once. -/
def MutualExclusion {n : Nat} (s : LockSystem n) : Prop :=
  ∀ i j, inCritical s i → inCritical s j → i = j

/-- A worker past its region does not hold GIT_LOCK: the with-block released
it on the way out. -/
def ReleasedOnExit {n : Nat} (s : LockSystem n) : Prop :=
  ∀ i, s.phase i = .finished → s.holder ≠ some i

theorem lockInv_of_reachable {n : Nat} (s : LockSystem n)
    (h : LockReachable s) : LockInv s := by
  induction h with
  | refl =>
    intro i
    simp [lockInit, inCritical]
  | tail hsteps hstep ih =>
    cases hstep with
    | reach j t ht =>
      intro i
      by_cases hij : i = j
      · subst hij
        constructor
        · intro hc
          simp [inCritical, Function.update_same] at hc
        · intro hs
          have := (ih i).mpr hs
          simp [inCritical, ht] at this
      · simpa [inCritical, Function.update_noteq hij] using ih i
    | acquire j t ht hfree =>
      intro i
      by_cases hij : i = j
      · subst hij
        simp [inCritical, Function.update_same]
      · constructor
        · intro hc
          have h2 := (ih i).mp
            (by simpa [inCritical, Function.update_noteq hij] using hc)
          rw [hfree] at h2
          simp at h2
        · intro hs
          have : j = i := Option.some_inj.mp hs
          exact absurd this.symm hij
    | commitDone j t ht =>
      have hj := (ih j).mp (Or.inl ht)
      intro i
      by_cases hij : i = j
      · subst hij
        simp [inCritical, Function.update_same, hj]
      · simpa [inCritical, Function.update_noteq hij] using ih i
    | release j t ht =>
      have hj := (ih j).mp (Or.inr ht)
      intro i
      by_cases hij : i = j
      · subst hij
        simp [inCritical, Function.update_same]
      · constructor
        · intro hc
          have h2 := (ih i).mp
            (by simpa [inCritical, Function.update_noteq hij] using hc)
          rw [hj] at h2
          exact absurd (Option.some_inj.mp h2).symm hij
        · intro hs
          simp at hs

/-- C4: in every state one job run can reach, no two workers are inside
their commit-plus-retention regions at the same time — at most one Repository
mutation is in flight — and a worker that has left the region no longer holds
GIT_LOCK (the with-block released it on its exit path). -/
theorem git_lock_mutual_exclusion {n : Nat} (s : LockSystem n)
    (h : LockReachable s) : MutualExclusion s ∧ ReleasedOnExit s := by
  have hinv := lockInv_of_reachable s h
  constructor
  · intro i j hi hj
    have h1 := (hinv i).mp hi
    have h2 := (hinv j).mp hj
    rw [h1] at h2
    exact Option.some_inj.mp h2
  · intro i hfin hsome
    have := (hinv i).mpr hsome
    rcases this with hc | hc <;> rw [hfin] at hc <;> exact WPhase.noConfusion hc

/-- A concrete reachable two-worker state: worker 0 reached the lock and
acquired it; worker 1 is still running. -/
def demoLockState : LockSystem 2 :=
  ⟨some 0, Function.update (Function.update (lockInit 2).phase 0 .waiting) 0 .critCommit⟩

theorem demoLockState_reachable : LockReachable demoLockState := by
  have s1 : LockStep (lockInit 2)
      ⟨(lockInit 2).holder, Function.update (lockInit 2).phase 0 .waiting⟩ :=
    LockStep.reach 0 (lockInit 2) rfl
  have s2 : LockStep
      (⟨(lockInit 2).holder, Function.update (lockInit 2).phase 0 .waiting⟩ : LockSystem 2)
      demoLockState :=
    LockStep.acquire 0 ⟨(lockInit 2).holder, Function.update (lockInit 2).phase 0 .waiting⟩
      (by simp [lockInit]) rfl
  exact Relation.ReflTransGen.tail (Relation.ReflTransGen.tail
    Relation.ReflTransGen.refl s1) s2

/-- Witness for C4 at the concrete reachable state where worker 0 holds the
lock inside its commit step. -/
theorem git_lock_mutual_exclusion_witness :
    MutualExclusion demoLockState ∧ ReleasedOnExit demoLockState :=
  git_lock_mutual_exclusion demoLockState demoLockState_reachable
